import Mathlib

/-!
# Verification of the `goinit` project scaffolder

A shallow embedding of the Go sources of the `goinit` repository.

The repository contains several evolutions of the same program:
* `src/unnamed/part_000` — the variant with a `go version` preflight probe,
  alias-aware `goModInit`, template files `.golintci.yml`, `.gitignore`,
  `Makefile`, a `scripts/` directory and a `.git/hooks/pre-commit` hook
  (below: suffix `D`);
* `src/main.go`, third block — the richest variant, which additionally
  creates `.goreleaser.yml` and `.github/workflows/releaser.yml`
  (below: suffix `C`);
* `src/main.go`, first and second blocks — early variants whose
  `goModInit` uses the bare project name (below: suffix `A`).

The embedding models strings as `List Char` for the SSH-config parsing and
the filesystem as a list of path-indexed entries with a current working
directory, an entry list and a subprocess trace.  External subprocess
outcomes (`go version`, `git init`, `go mod init`) are inputs of the model
(`World`).
-/

namespace Goinit

/-! ## Go regexp character classes

`regexp` in Go uses the RE2 Perl classes: `\s` is `[\t\n\f\r ]` and
`\w` is `[0-9A-Za-z_]`. -/

/-- The RE2 `\s` class used by Go's `regexp`. -/
def isSpaceGo (c : Char) : Bool :=
  c = '\t' || c = '\n' || c = '\x0C' || c = '\r' || c = ' '

/-- The RE2 `\w` class used by Go's `regexp`. -/
def isWordGo (c : Char) : Bool :=
  ('0' ≤ c && c ≤ '9') || ('A' ≤ c && c ≤ 'Z') || ('a' ≤ c && c ≤ 'z') || c = '_'

/-- The literal head of the pattern `Host github\.com\n\s+User (?P<user>\w+)`. -/
def hostTag : List Char := "Host github.com\n".data

/-- The literal `User ` part of the pattern. -/
def userTag : List Char := "User ".data

/-- Strip an expected literal from the front of a character list. -/
def dropLit : List Char → List Char → Option (List Char)
  | [], s => some s
  | _ :: _, [] => none
  | p :: ps, c :: cs => if c = p then dropLit ps cs else none

/-- Try to match `Host github\.com\n\s+User (?P<user>\w+)` at the head of
`s`, returning the capture of the group `user`.  The `\s+` length is forced
(it must stop exactly at the first non-space character, which has to be the
`U` of `User `), and `\w+` is greedy, so the match at a fixed position is
deterministic. -/
def matchAt (s : List Char) : Option (List Char) :=
  match dropLit hostTag s with
  | none => none
  | some r1 =>
    let ws := r1.takeWhile isSpaceGo
    if ws = [] then none
    else
      match dropLit userTag (r1.drop ws.length) with
      | none => none
      | some r2 =>
        let u := r2.takeWhile isWordGo
        if u = [] then none else some u

/-- Leftmost match of the pattern over the whole input, as
`regexp.FindStringSubmatch` computes it: the first start position at which
the full pattern matches wins. -/
def findUser : List Char → Option (List Char)
  | [] => none
  | c :: rest =>
    match matchAt (c :: rest) with
    | some u => some u
    | none => findUser rest

/-! ## `readFile` and `getAlias`

`readFile` opens the file and performs a single `Read` into a 1024-byte
buffer.  Opening a missing/unreadable file fails; a single `Read` on an
empty file returns `(0, io.EOF)`, which the Go code also treats as an
error.  A non-empty regular file yields its first `min(len, 1024)` bytes. -/

/-- Outcome classes of the bounded `readFile`. -/
inductive ReadErr where
  | openFail
  | eof
deriving DecidableEq

/-- The environment `getAlias` consults: the result of `os.UserHomeDir`
and the content of `<home>/.ssh/config` (`none` when the file is missing
or unreadable). -/
structure Env where
  homeDir : Option String
  sshConfig : Option (List Char)
deriving DecidableEq

/-- Embedding of `readFile` (both alias-aware variants share it). -/
def readFile : Option (List Char) → Except ReadErr (List Char)
  | none => .error .openFail
  | some c => if c = [] then .error .eof else .ok (c.take 1024)

/-- The fallback alias literal `DefaultAlias`. -/
def DefaultAlias : String := "project/"

/-- Embedding of `getAlias` (identical in `part_000` and in the rich
`main.go` variant). -/
def getAlias (env : Env) : String :=
  match env.homeDir with
  | none => DefaultAlias
  | some _ =>
    match readFile env.sshConfig with
    | .error _ => DefaultAlias
    | .ok input =>
      match findUser input with
      | none => DefaultAlias
      | some u => "github.com/" ++ String.mk u ++ "/"

/-! ## Filesystem and orchestration model

Paths are lists of components relative to the directory the program is
started in.  `St` carries the implicit working-directory cursor, the
created/pre-existing entries and the trace of subprocess invocations.
External command outcomes are inputs (`World`). -/

/-- Kind of a filesystem entry. -/
inductive EKind where
  | dir
  | file
deriving DecidableEq

/-- A filesystem entry: path, kind, owner execute permission bit, and for
files the logical template path the content was copied from. -/
structure Entry where
  path : List String
  kind : EKind
  exec : Bool
  src : String
deriving DecidableEq

/-- Directory entry (created with `os.ModePerm`, hence executable). -/
def dirE (p : List String) : Entry := ⟨p, .dir, true, ""⟩

/-- File entry with a given execute bit and template source. -/
def fileE (p : List String) (x : Bool) (tmpl : String) : Entry :=
  ⟨p, .file, x, tmpl⟩

/-- Program state: working directory, entries, subprocess trace. -/
structure St where
  cwd : List String
  ents : List Entry
  trace : List (List String)
deriving DecidableEq

/-- Errors surfaced by the orchestration steps. -/
inductive Err where
  | alreadyExists
  | toolError (cmd : List String)
  | ioError (op : String)
deriving DecidableEq

/-- Look an entry up by path. -/
def lookupE : List Entry → List String → Option Entry
  | [], _ => none
  | e :: es, p => if e.path = p then some e else lookupE es p

/-- Fail-fast sequencing: exactly the `if err != nil { return err }` chain
of the Go code.  Errors carry the state reached so far (no rollback). -/
def seqE (r : Except (Err × St) St) (f : St → Except (Err × St) St) :
    Except (Err × St) St :=
  match r with
  | .error e => .error e
  | .ok s => f s

/-- Run an external command: it is always recorded in the trace; on
success it contributes its entries, on failure (non-zero exit or launch
failure) it contributes nothing. -/
def runCmd (ok : Bool) (cmd : List String) (creates : List Entry) (s : St) :
    Except (Err × St) St :=
  let s' := { s with trace := s.trace ++ [cmd] }
  if ok then .ok { s' with ents := s'.ents ++ creates }
  else .error (.toolError cmd, s')

/-- `os.Mkdir(path, os.ModePerm)`. -/
def osMkdir (p : List String) (s : St) : Except (Err × St) St :=
  if (lookupE s.ents p).isSome then .error (.ioError "mkdir", s)
  else .ok { s with ents := s.ents ++ [dirE p] }

/-- Embedding of the `mkdir` function: `os.Stat` first — any existing
entry (directory or not) aborts with the already-exists error before any
mutation — then `os.Mkdir` at the joined path. -/
def mkdir (name : List String) (s : St) : Except (Err × St) St :=
  if (lookupE s.ents (s.cwd ++ name)).isSome then .error (.alreadyExists, s)
  else osMkdir (s.cwd ++ name) s

/-- `os.Chdir`. -/
def chdir (name : List String) (s : St) : Except (Err × St) St :=
  match lookupE s.ents (s.cwd ++ name) with
  | some e =>
    match e.kind with
    | .dir => .ok { s with cwd := s.cwd ++ name }
    | .file => .error (.ioError "chdir", s)
  | none => .error (.ioError "chdir", s)

/-- Embedding of `createFile`: `os.Create` (mode `0666`, no execute bit;
truncates an existing file keeping its permissions), then the embedded
template content is written. -/
def createFile (name : List String) (tmpl : String) (s : St) :
    Except (Err × St) St :=
  match lookupE s.ents (s.cwd ++ name) with
  | some e =>
    match e.kind with
    | .dir => .error (.ioError "create", s)
    | .file =>
      .ok { s with ents := s.ents.map fun x =>
        if x.path = s.cwd ++ name then { x with src := tmpl } else x }
  | none => .ok { s with ents := s.ents ++ [fileE (s.cwd ++ name) false tmpl] }

/-- `os.Chmod(name, 0o700)`: set the owner execute bit. -/
def chmod (name : List String) (s : St) : Except (Err × St) St :=
  if (lookupE s.ents (s.cwd ++ name)).isSome then
    .ok { s with ents := s.ents.map fun x =>
      if x.path = s.cwd ++ name then { x with exec := true } else x }
  else .error (.ioError "chmod", s)

/-- External command outcomes and alias environment for one run. -/
structure World where
  goInstalled : Bool
  gitInitOk : Bool
  goModInitOk : Bool
  aliasEnv : Env

/-- The `go version` probe command. -/
def goVersionCmd : List String := ["go", "version"]

/-- The `git init` command. -/
def gitInitCmd : List String := ["git", "init"]

/-- `git init` in the current directory; on success it materialises the
`.git` and `.git/hooks` directories the later hook step depends on. -/
def gitInit (w : World) (s : St) : Except (Err × St) St :=
  runCmd w.gitInitOk gitInitCmd
    [dirE (s.cwd ++ [".git"]), dirE (s.cwd ++ [".git", "hooks"])] s

/-- The composed module name the alias-aware `goModInit` passes to
`go mod init`. -/
def goModInitCmd (env : Env) (n : String) : List String :=
  ["go", "mod", "init", getAlias env ++ n]

/-- Embedding of the alias-aware `goModInit` (shared by `part_000` and the
rich `main.go` variant): `go mod init` with `getAlias() + name`. -/
def goModInitD (w : World) (n : String) (s : St) : Except (Err × St) St :=
  runCmd w.goModInitOk (goModInitCmd w.aliasEnv n) [] s

/-- Embedding of `goModInit` from the first `main.go` variant
(lines 98–106): `go mod init` with the bare name, no alias. -/
def goModInitA (w : World) (n : String) (s : St) : Except (Err × St) St :=
  runCmd w.goModInitOk ["go", "mod", "init", n] [] s

/-! ## The `part_000` variant (suffix `D`) -/

/-- Embedding of `createScripts` from `part_000`: `scripts/pre-commit` is
written with plain `createFile` (no chmod); only `setup.sh` and
`cibuild.sh` get the execute bit. -/
def createScriptsD (s : St) : Except (Err × St) St :=
  seqE (mkdir ["scripts"] s) fun s =>
  seqE (createFile ["scripts", "pre-commit"] "templates/scripts/pre-commit" s) fun s =>
  seqE (createFile ["scripts", "setup.sh"] "templates/scripts/setup.sh" s) fun s =>
  seqE (chmod ["scripts", "setup.sh"] s) fun s =>
  seqE (createFile ["scripts", "cibuild.sh"] "templates/scripts/cibuild.sh" s) fun s =>
  chmod ["scripts", "cibuild.sh"] s

/-- Embedding of `createPreCommitHook` from `part_000`. -/
def createPreCommitHookD (s : St) : Except (Err × St) St :=
  seqE (chdir [".git", "hooks"] s) fun s =>
  seqE (createFile ["pre-commit"] "templates/scripts/pre-commit" s) fun s =>
  chmod ["pre-commit"] s

/-- Embedding of `createProjectFiles` from `part_000`. -/
def createProjectFilesD (w : World) (n : String) (s : St) :
    Except (Err × St) St :=
  seqE (chdir [n] s) fun s =>
  seqE (gitInit w s) fun s =>
  seqE (goModInitD w n s) fun s =>
  seqE (createFile [".golintci.yml"] "templates/.golangci.yml" s) fun s =>
  seqE (createFile [".gitignore"] "templates/.gitignore" s) fun s =>
  seqE (createFile ["Makefile"] "templates/Makefile" s) fun s =>
  seqE (createScriptsD s) fun s =>
  createPreCommitHookD s

/-- Embedding of `main` from `part_000`: `go version` probe, `mkdir`,
`createProjectFiles`. -/
def runD (w : World) (n : String) (s : St) : Except (Err × St) St :=
  seqE (runCmd w.goInstalled goVersionCmd [] s) fun s =>
  seqE (mkdir [n] s) fun s =>
  createProjectFilesD w n s

/-! ## The rich `main.go` variant (suffix `C`) -/

/-- Embedding of `createExecutableFile`. -/
def createExecFile (name : List String) (tmpl : String) (s : St) :
    Except (Err × St) St :=
  seqE (createFile name tmpl s) fun s => chmod name s

/-- Embedding of `createScripts` from the rich variant: all three scripts
go through `createExecutableFile`. -/
def createScriptsC (s : St) : Except (Err × St) St :=
  seqE (mkdir ["scripts"] s) fun s =>
  seqE (createExecFile ["scripts", "pre-commit"] "templates/scripts/pre-commit" s) fun s =>
  seqE (createExecFile ["scripts", "setup.sh"] "templates/scripts/setup.sh" s) fun s =>
  createExecFile ["scripts", "cibuild.sh"] "templates/scripts/cibuild.sh" s

/-- Embedding of `createGithubAction`. -/
def createGithubActionC (s : St) : Except (Err × St) St :=
  seqE (mkdir [".github"] s) fun s =>
  seqE (mkdir [".github", "workflows"] s) fun s =>
  createFile [".github", "workflows", "releaser.yml"] "templates/releaser.yml" s

/-- Embedding of `createPreCommitHook` from the rich variant. -/
def createPreCommitHookC (s : St) : Except (Err × St) St :=
  seqE (chdir [".git", "hooks"] s) fun s =>
  createExecFile ["pre-commit"] "templates/scripts/pre-commit" s

/-- Embedding of `createProjectFiles` from the rich variant. -/
def createProjectFilesC (w : World) (n : String) (s : St) :
    Except (Err × St) St :=
  seqE (chdir [n] s) fun s =>
  seqE (gitInit w s) fun s =>
  seqE (goModInitD w n s) fun s =>
  seqE (createFile [".golintci.yml"] "templates/.golangci.yml" s) fun s =>
  seqE (createFile [".goreleaser.yml"] "templates/.goreleaser.yml" s) fun s =>
  seqE (createFile [".gitignore"] "templates/.gitignore" s) fun s =>
  seqE (createFile ["Makefile"] "templates/Makefile" s) fun s =>
  seqE (createScriptsC s) fun s =>
  seqE (createGithubActionC s) fun s =>
  createPreCommitHookC s

/-- Embedding of `main` from the rich variant: `isGoInstalled` probe
(`go version`), `mkdir`, `createProjectFiles`. -/
def runC (w : World) (n : String) (s : St) : Except (Err × St) St :=
  seqE (runCmd w.goInstalled goVersionCmd [] s) fun s =>
  seqE (mkdir [n] s) fun s =>
  createProjectFilesC w n s

/-- The state a run starts in: empty working location, nothing created,
no subprocess run yet. -/
def initSt : St := ⟨[], [], []⟩

/-! ## Expected states -/

/-- Trace of a run that reached the module-init step. -/
def fullTrace (env : Env) (n : String) : List (List String) :=
  [goVersionCmd, gitInitCmd, goModInitCmd env n]

/-- State after `git init` failed in the `part_000` variant. -/
def stGitFail (n : String) : St :=
  ⟨[n], [dirE [n]], [goVersionCmd, gitInitCmd]⟩

/-- State after `go mod init` failed. -/
def stModFail (n : String) (env : Env) : St :=
  ⟨[n], [dirE [n], dirE [n, ".git"], dirE [n, ".git", "hooks"]],
    fullTrace env n⟩

/-- Final state of a fully successful `part_000` run on a clean world. -/
def finalD (n : String) (env : Env) : St :=
  { cwd := [n, ".git", "hooks"],
    ents := [dirE [n], dirE [n, ".git"], dirE [n, ".git", "hooks"],
      fileE [n, ".golintci.yml"] false "templates/.golangci.yml",
      fileE [n, ".gitignore"] false "templates/.gitignore",
      fileE [n, "Makefile"] false "templates/Makefile",
      dirE [n, "scripts"],
      fileE [n, "scripts", "pre-commit"] false "templates/scripts/pre-commit",
      fileE [n, "scripts", "setup.sh"] true "templates/scripts/setup.sh",
      fileE [n, "scripts", "cibuild.sh"] true "templates/scripts/cibuild.sh",
      fileE [n, ".git", "hooks", "pre-commit"] true "templates/scripts/pre-commit"],
    trace := fullTrace env n }

/-- Final state of a fully successful rich-variant run on a clean world. -/
def finalC (n : String) (env : Env) : St :=
  { cwd := [n, ".git", "hooks"],
    ents := [dirE [n], dirE [n, ".git"], dirE [n, ".git", "hooks"],
      fileE [n, ".golintci.yml"] false "templates/.golangci.yml",
      fileE [n, ".goreleaser.yml"] false "templates/.goreleaser.yml",
      fileE [n, ".gitignore"] false "templates/.gitignore",
      fileE [n, "Makefile"] false "templates/Makefile",
      dirE [n, "scripts"],
      fileE [n, "scripts", "pre-commit"] true "templates/scripts/pre-commit",
      fileE [n, "scripts", "setup.sh"] true "templates/scripts/setup.sh",
      fileE [n, "scripts", "cibuild.sh"] true "templates/scripts/cibuild.sh",
      dirE [n, ".github"], dirE [n, ".github", "workflows"],
      fileE [n, ".github", "workflows", "releaser.yml"] false "templates/releaser.yml",
      fileE [n, ".git", "hooks", "pre-commit"] true "templates/scripts/pre-commit"],
    trace := fullTrace env n }

/-! ## Observation helpers -/

/-- The subprocess trace of a finished run, successful or not. -/
def traceOf : Except (Err × St) St → List (List String)
  | .ok s => s.trace
  | .error (_, s) => s.trace

/-- View of an entry as a (path, execute-bit) pair, for files only. -/
def fileView (e : Entry) : Option (List String × Bool) :=
  match e.kind with
  | .file => some (e.path, e.exec)
  | .dir => none

/-- The argument lists of all `go mod init` invocations in a trace. -/
def modInitArgs (tr : List (List String)) : List (List String) :=
  tr.filterMap fun c =>
    match c with
    | "go" :: "mod" :: "init" :: rest => some rest
    | _ => none

/-! ## Lemmas about the pattern matcher -/

theorem dropLit_append (p s : List Char) : dropLit p (p ++ s) = some s := by
  induction p with
  | nil => rfl
  | cons a t ih => simp [dropLit, ih]

theorem takeWhile_append_eq (p : Char → Bool) (l r : List Char)
    (hl : ∀ c ∈ l, p c = true)
    (hr : ∀ c cs, r = c :: cs → p c = false) :
    (l ++ r).takeWhile p = l := by
  induction l with
  | nil =>
    cases r with
    | nil => rfl
    | cons c cs => simp [List.takeWhile_cons, hr c cs rfl]
  | cons a t ih =>
    have ha : p a = true := hl a (by simp)
    simp only [List.cons_append, List.takeWhile_cons, ha, if_true]
    have : (t ++ r).takeWhile p = t := ih (fun c hc => hl c (by simp [hc]))
    simp [this]

theorem matchAt_structured (ws u rest : List Char)
    (hws : ws ≠ []) (hwsall : ∀ c ∈ ws, isSpaceGo c = true)
    (hu : u ≠ []) (huall : ∀ c ∈ u, isWordGo c = true)
    (hrest : ∀ c cs, rest = c :: cs → isWordGo c = false) :
    matchAt (hostTag ++ (ws ++ (userTag ++ (u ++ rest)))) = some u := by
  have h1 : (ws ++ (userTag ++ (u ++ rest))).takeWhile isSpaceGo = ws := by
    refine takeWhile_append_eq _ _ _ hwsall ?_
    intro c cs hc
    rw [show userTag = 'U' :: "ser ".data from rfl, List.cons_append] at hc
    injection hc with h2 _
    rw [← h2]; decide
  have h2 : (u ++ rest).takeWhile isWordGo = u :=
    takeWhile_append_eq _ _ _ huall hrest
  simp only [matchAt, dropLit_append, h1, hws, if_neg, List.drop_left,
    dropLit_append, h2]
  simp [hws, hu]

theorem findUser_of_matchAt {s u : List Char} (hm : matchAt s = some u) :
    findUser s = some u := by
  cases s with
  | nil =>
    rw [show matchAt [] = none from rfl] at hm
    cases hm
  | cons a t => simp [findUser, hm]

/-- A well-formed block at the head of the input: `Host github.com`,
a newline, non-empty whitespace (possibly spanning blank lines), `User `,
then a non-empty word-character run that the following character (if any)
terminates.  The matcher captures exactly that run. -/
theorem findUser_structured (ws u rest : List Char)
    (hws : ws ≠ []) (hwsall : ∀ c ∈ ws, isSpaceGo c = true)
    (hu : u ≠ []) (huall : ∀ c ∈ u, isWordGo c = true)
    (hrest : ∀ c cs, rest = c :: cs → isWordGo c = false) :
    findUser (hostTag ++ (ws ++ (userTag ++ (u ++ rest)))) = some u :=
  findUser_of_matchAt (matchAt_structured ws u rest hws hwsall hu huall hrest)

/-! ## Claims about the alias resolver -/

/-- C2: `getAlias` is total (it is a plain function into `String`) and its
value is completely characterised: it is `"github.com/<user>/"` exactly when
the home directory is available and the SSH config file is present,
non-empty, and the pattern matches within the first 1024 bytes read; in
every other case (no home directory, missing/unreadable file, empty file,
or no match within the byte budget) it is the literal default
`"project/"`. -/
theorem getAlias_total_spec (env : Env) :
    (env.homeDir = none → getAlias env = DefaultAlias) ∧
    (env.sshConfig = none → getAlias env = DefaultAlias) ∧
    (env.sshConfig = some [] → getAlias env = DefaultAlias) ∧
    (∀ c, env.sshConfig = some c → findUser (c.take 1024) = none →
      getAlias env = DefaultAlias) ∧
    (∀ h c u, env.homeDir = some h → env.sshConfig = some c → c ≠ [] →
      findUser (c.take 1024) = some u →
      getAlias env = "github.com/" ++ String.mk u ++ "/") := by
  obtain ⟨hd, cfg⟩ := env
  refine ⟨?_, ?_, ?_, ?_, ?_⟩
  · intro h; subst h; simp [getAlias]
  · intro h; subst h; cases hd <;> simp [getAlias, readFile]
  · intro h; subst h; cases hd <;> simp [getAlias, readFile]
  · intro c hc hfind; subst hc
    cases hd <;> by_cases hce : c = [] <;>
      simp_all [getAlias, readFile]
  · intro h c u hh hc hne hfind
    subst hh; subst hc
    simp [getAlias, readFile, hne, hfind]

/-- C2 witness: a concrete environment on each side of the
characterisation. -/
theorem getAlias_total_spec_witness :
    getAlias ⟨some "home", some "Host github.com\n  User alice".data⟩ =
      "github.com/" ++ String.mk "alice".data ++ "/" ∧
    getAlias ⟨some "home", some "Host gitlab.org\n  User alice".data⟩ =
      DefaultAlias :=
  ⟨(getAlias_total_spec _).2.2.2.2 "home" _ "alice".data rfl rfl
      (by decide) (by decide),
    (getAlias_total_spec _).2.2.2.1 _ rfl (by decide)⟩

/-- C5 counterexample: a config text where `Host github.com` and the
subsequent `User` entry are separated only by whitespace/newline characters
but the `Host` line carries a trailing space; the claim asserts the user is
captured, yet the pattern requires the newline to follow `github.com`
immediately, so the resolver falls back to the default. -/
theorem hostLine_trailing_space_no_match :
    findUser "Host github.com \n User alice".data = none ∧
    getAlias ⟨some "home", some "Host github.com \n User alice".data⟩ =
      DefaultAlias := by
  constructor <;> decide

/-- C5 (amended): the pattern requires the newline to come immediately
after `Host github.com`; after that newline, one or more whitespace
characters (blank lines included) may precede the `User` entry, and then
the user name is captured. -/
theorem findUser_matches_block (ws u : List Char)
    (hws : ws ≠ []) (hwsall : ∀ c ∈ ws, isSpaceGo c = true)
    (hu : u ≠ []) (huall : ∀ c ∈ u, isWordGo c = true) :
    findUser (hostTag ++ (ws ++ (userTag ++ u))) = some u := by
  have := findUser_structured ws u [] hws hwsall hu huall (by intro c cs h; cases h)
  simpa using this

/-- C5 witness: a blank line plus indentation between the `Host` line and
the `User` line still matches. -/
theorem findUser_matches_block_witness :
    findUser (hostTag ++ (['\n', ' ', ' '] ++ (userTag ++ "bob".data))) =
      some "bob".data :=
  findUser_matches_block ['\n', ' ', ' '] "bob".data (by decide) (by decide)
    (by decide) (by decide)

/-- C8: when the `User` value continues with a character outside `\w`
(e.g. a hyphen), only the maximal leading word-character run is captured,
and `getAlias` builds the prefix from that truncated name. -/
theorem getAlias_truncates_at_nonword (h : String) (ws u rest : List Char)
    (c : Char) (hws : ws ≠ []) (hwsall : ∀ x ∈ ws, isSpaceGo x = true)
    (hu : u ≠ []) (huall : ∀ x ∈ u, isWordGo x = true)
    (hc : isWordGo c = false)
    (hlen : (hostTag ++ (ws ++ (userTag ++ (u ++ (c :: rest))))).length ≤ 1024) :
    getAlias ⟨some h, some (hostTag ++ (ws ++ (userTag ++ (u ++ (c :: rest)))))⟩ =
      "github.com/" ++ String.mk u ++ "/" := by
  have hne : hostTag ++ (ws ++ (userTag ++ (u ++ (c :: rest)))) ≠ [] := by
    rw [show hostTag = 'H' :: "ost github.com\n".data from rfl]
    simp
  have hfind : findUser ((hostTag ++ (ws ++ (userTag ++ (u ++ (c :: rest))))).take 1024) =
      some u := by
    rw [List.take_of_length_le hlen]
    exact findUser_structured ws u (c :: rest) hws hwsall hu huall
      (by intro x xs hx; injection hx with h1 _; rw [← h1]; exact hc)
  exact (getAlias_total_spec _).2.2.2.2 h _ u rfl rfl hne hfind

/-- C8 witness: the hyphenated GitHub user name `foo-bar` yields the
truncated prefix `github.com/foo/`. -/
theorem getAlias_truncates_at_nonword_witness :
    getAlias ⟨some "home",
        some (hostTag ++ ([' ', ' '] ++ (userTag ++ ("foo".data ++ ('-' :: "bar".data)))))⟩ =
      "github.com/" ++ String.mk "foo".data ++ "/" :=
  getAlias_truncates_at_nonword "home" [' ', ' '] "foo".data "bar".data '-'
    (by decide) (by decide) (by decide) (by decide) (by decide) (by decide)

/-- C9: an existing but empty SSH config file makes the single bounded
read report end-of-file as an error, so `getAlias` returns the default,
exactly as when the file is missing. -/
theorem empty_config_like_missing (h : String) :
    readFile (some []) = .error .eof ∧
    readFile none = .error .openFail ∧
    getAlias ⟨some h, some []⟩ = DefaultAlias ∧
    getAlias ⟨some h, some []⟩ = getAlias ⟨some h, none⟩ := by
  refine ⟨rfl, rfl, ?_, ?_⟩ <;> simp [getAlias, readFile]

/-! ## Run characterisations

The worlds below differ only in the injected subprocess outcomes; the
lemmas compute each run completely. -/

theorem runD_abort (n : String) (env : Env) (g m : Bool) (s : St) :
    runD ⟨false, g, m, env⟩ n s =
      .error (.toolError goVersionCmd, { s with trace := s.trace ++ [goVersionCmd] }) := by
  simp [runD, seqE, runCmd]

theorem runC_abort (n : String) (env : Env) (g m : Bool) (s : St) :
    runC ⟨false, g, m, env⟩ n s =
      .error (.toolError goVersionCmd, { s with trace := s.trace ++ [goVersionCmd] }) := by
  simp [runC, seqE, runCmd]

theorem runD_rootExists (n : String) (env : Env) (g m : Bool) (e : Entry)
    (he : e.path = [n]) :
    runD ⟨true, g, m, env⟩ n ⟨[], [e], []⟩ =
      .error (.alreadyExists, ⟨[], [e], [goVersionCmd]⟩) := by
  simp [runD, seqE, runCmd, mkdir, lookupE, he, goVersionCmd]

theorem runD_gitFail (n : String) (env : Env) (m : Bool) :
    runD ⟨true, false, m, env⟩ n initSt =
      .error (.toolError gitInitCmd, stGitFail n) := by
  simp [runD, createProjectFilesD, seqE, runCmd, mkdir, osMkdir, chdir,
    gitInit, lookupE, initSt, stGitFail, dirE, goVersionCmd, gitInitCmd]

theorem runD_modFail (n : String) (env : Env) :
    runD ⟨true, true, false, env⟩ n initSt =
      .error (.toolError (goModInitCmd env n), stModFail n env) := by
  simp [runD, createProjectFilesD, seqE, runCmd, mkdir, osMkdir, chdir,
    gitInit, goModInitD, lookupE, initSt, stModFail, dirE, goVersionCmd,
    gitInitCmd, fullTrace]

set_option maxHeartbeats 1000000 in
theorem runD_ok (n : String) (env : Env) :
    runD ⟨true, true, true, env⟩ n initSt = .ok (finalD n env) := by
  simp [runD, createProjectFilesD, createScriptsD, createPreCommitHookD,
    seqE, runCmd, mkdir, osMkdir, chdir, createFile, chmod, gitInit,
    goModInitD, lookupE, initSt, finalD, dirE, fileE, goVersionCmd,
    gitInitCmd, goModInitCmd, fullTrace]

theorem runC_gitFail (n : String) (env : Env) (m : Bool) :
    runC ⟨true, false, m, env⟩ n initSt =
      .error (.toolError gitInitCmd, stGitFail n) := by
  simp [runC, createProjectFilesC, seqE, runCmd, mkdir, osMkdir, chdir,
    gitInit, lookupE, initSt, stGitFail, dirE, goVersionCmd, gitInitCmd]

theorem runC_modFail (n : String) (env : Env) :
    runC ⟨true, true, false, env⟩ n initSt =
      .error (.toolError (goModInitCmd env n), stModFail n env) := by
  simp [runC, createProjectFilesC, seqE, runCmd, mkdir, osMkdir, chdir,
    gitInit, goModInitD, lookupE, initSt, stModFail, dirE, goVersionCmd,
    gitInitCmd, fullTrace]

set_option maxHeartbeats 1600000 in
theorem runC_ok (n : String) (env : Env) :
    runC ⟨true, true, true, env⟩ n initSt = .ok (finalC n env) := by
  simp [runC, createProjectFilesC, createScriptsC, createGithubActionC,
    createPreCommitHookC, createExecFile, seqE, runCmd, mkdir, osMkdir,
    chdir, createFile, chmod, gitInit, goModInitD, lookupE, initSt, finalC,
    dirE, fileE, goVersionCmd, gitInitCmd, goModInitCmd, fullTrace]

/-! ## Claims about the orchestration -/

/-- C4: whenever an entry already exists at the target name, `mkdir` fails
with the already-exists error and performs no mutation at all — the state
it returns with the error is the input state. -/
theorem mkdir_alreadyExists (s : St) (name : List String)
    (h : (lookupE s.ents (s.cwd ++ name)).isSome = true) :
    mkdir name s = .error (.alreadyExists, s) := by
  simp [mkdir, h]

/-- C4 witness: a concrete state with a pre-existing `demo` directory. -/
theorem mkdir_alreadyExists_witness :
    mkdir ["demo"] ⟨[], [dirE ["demo"]], []⟩ =
      .error (.alreadyExists, ⟨[], [dirE ["demo"]], []⟩) :=
  mkdir_alreadyExists ⟨[], [dirE ["demo"]], []⟩ ["demo"] (by decide)

/-- C10: the pre-existence check of `mkdir` only tests that a stat
succeeds, so even a plain file at the target name triggers the
already-exists rejection. -/
theorem mkdir_rejects_existing_file (s : St) (name : List String) (e : Entry)
    (he : lookupE s.ents (s.cwd ++ name) = some e) (_hk : e.kind = EKind.file) :
    mkdir name s = .error (.alreadyExists, s) := by
  simp [mkdir, he]

/-- C10 witness: a regular (non-directory) file named `demo` blocks
`mkdir demo`. -/
theorem mkdir_rejects_existing_file_witness :
    mkdir ["demo"] ⟨[], [fileE ["demo"] false "x"], []⟩ =
      .error (.alreadyExists, ⟨[], [fileE ["demo"] false "x"], []⟩) :=
  mkdir_rejects_existing_file ⟨[], [fileE ["demo"] false "x"], []⟩ ["demo"]
    (fileE ["demo"] false "x") (by decide) (by decide)

/-- C6: fail-fast orchestration of `part_000`.  Every failure the model
can inject (pre-existing root, `git init` failing, `go mod init` failing)
halts the run at that step: the error state contains exactly the artifacts
of the completed earlier steps (no rollback) and nothing scheduled later,
and the trace stops at the failed step; with no failure the run produces
the full artifact set. -/
theorem orchestration_failFast (n : String) (env : Env) :
    (∀ (g m : Bool) (e : Entry), e.path = [n] →
      runD ⟨true, g, m, env⟩ n ⟨[], [e], []⟩ =
        .error (.alreadyExists, ⟨[], [e], [goVersionCmd]⟩)) ∧
    (∀ m : Bool, runD ⟨true, false, m, env⟩ n initSt =
      .error (.toolError gitInitCmd, stGitFail n)) ∧
    (runD ⟨true, true, false, env⟩ n initSt =
      .error (.toolError (goModInitCmd env n), stModFail n env)) ∧
    (runD ⟨true, true, true, env⟩ n initSt = .ok (finalD n env)) :=
  ⟨fun g m e he => runD_rootExists n env g m e he,
    fun m => runD_gitFail n env m, runD_modFail n env, runD_ok n env⟩

/-- C6 witness: a pre-existing `demo` entry stops the run right after the
probe, and a failing `go mod init` on the project `demo` leaves exactly
the root and the repository directories behind and stops there. -/
theorem orchestration_failFast_witness :
    (runD ⟨true, true, true, ⟨none, none⟩⟩ "demo" ⟨[], [dirE ["demo"]], []⟩ =
      .error (.alreadyExists, ⟨[], [dirE ["demo"]], [goVersionCmd]⟩)) ∧
    (runD ⟨true, true, false, ⟨none, none⟩⟩ "demo" initSt =
      .error (.toolError (goModInitCmd ⟨none, none⟩ "demo"),
        stModFail "demo" ⟨none, none⟩)) :=
  ⟨(orchestration_failFast "demo" ⟨none, none⟩).1 true true (dirE ["demo"]) rfl,
    (orchestration_failFast "demo" ⟨none, none⟩).2.2.1⟩

/-- C7: in both preflight variants the `go version` probe is the first
thing in every trace, and when the probe fails the program terminates with
only the probe executed and the filesystem entries of the initial state
untouched. -/
theorem preflight_first (n : String) (w : World) :
    (w.goInstalled = false → ∀ s : St,
      runD w n s =
        .error (.toolError goVersionCmd, { s with trace := s.trace ++ [goVersionCmd] }) ∧
      runC w n s =
        .error (.toolError goVersionCmd, { s with trace := s.trace ++ [goVersionCmd] })) ∧
    (∃ t, traceOf (runD w n initSt) = goVersionCmd :: t) ∧
    (∃ t, traceOf (runC w n initSt) = goVersionCmd :: t) := by
  obtain ⟨gi, g, m, env⟩ := w
  refine ⟨?_, ?_, ?_⟩
  · intro h s
    simp only at h
    subst h
    exact ⟨runD_abort n env g m s, runC_abort n env g m s⟩
  · cases gi
    · exact ⟨_, by rw [runD_abort] ; rfl⟩
    · cases g
      · exact ⟨_, by rw [runD_gitFail] ; rfl⟩
      · cases m
        · exact ⟨_, by rw [runD_modFail] ; rfl⟩
        · exact ⟨_, by rw [runD_ok] ; rfl⟩
  · cases gi
    · exact ⟨_, by rw [runC_abort] ; rfl⟩
    · cases g
      · exact ⟨_, by rw [runC_gitFail] ; rfl⟩
      · cases m
        · exact ⟨_, by rw [runC_modFail] ; rfl⟩
        · exact ⟨_, by rw [runC_ok] ; rfl⟩

/-- C7 witness: with `go` unavailable the `part_000` run aborts with the
probe as the only executed action and no entry created. -/
theorem preflight_first_witness :
    runD ⟨false, true, true, ⟨none, none⟩⟩ "demo" initSt =
      .error (.toolError goVersionCmd, ⟨[], [], [goVersionCmd]⟩) :=
  ((preflight_first "demo" ⟨false, true, true, ⟨none, none⟩⟩).1 rfl initSt).1

/-- C1 counterexample: with name `demo` on a clean world, the successful
`part_000` run leaves `scripts/pre-commit` without the execute bit (its
`createScripts` never chmods it), and the successful rich-variant run
additionally creates `.goreleaser.yml`, which the claimed exact file list
does not contain. -/
theorem project_file_set_cex :
    (∃ s, runD ⟨true, true, true, ⟨none, none⟩⟩ "demo" initSt = .ok s ∧
      lookupE s.ents ["demo", "scripts", "pre-commit"] =
        some (fileE ["demo", "scripts", "pre-commit"] false
          "templates/scripts/pre-commit")) ∧
    (∃ s, runC ⟨true, true, true, ⟨none, none⟩⟩ "demo" initSt = .ok s ∧
      lookupE s.ents ["demo", ".goreleaser.yml"] =
        some (fileE ["demo", ".goreleaser.yml"] false
          "templates/.goreleaser.yml")) :=
  ⟨⟨finalD "demo" ⟨none, none⟩, runD_ok "demo" ⟨none, none⟩, by decide⟩,
    ⟨finalC "demo" ⟨none, none⟩, runC_ok "demo" ⟨none, none⟩, by decide⟩⟩

/-- C1 (amended): for every name `n` on a clean world, after a full
successful run the files on disk are exactly the lint-config file, the
ignore file, the build file, the three scripts and the hook — plus, in the
rich variant, `.goreleaser.yml` and `.github/workflows/releaser.yml`; the
hook carries the execute bit in both variants, but in `part_000` only
`setup.sh` and `cibuild.sh` among the scripts are executable
(`scripts/pre-commit` is not), while the rich variant marks all three
scripts executable; no other file has the execute bit set. -/
theorem project_file_set (n : String) (env : Env) :
    (∃ s, runD ⟨true, true, true, env⟩ n initSt = .ok s ∧
      s.ents.filterMap fileView =
        [([n, ".golintci.yml"], false), ([n, ".gitignore"], false),
         ([n, "Makefile"], false),
         ([n, "scripts", "pre-commit"], false),
         ([n, "scripts", "setup.sh"], true),
         ([n, "scripts", "cibuild.sh"], true),
         ([n, ".git", "hooks", "pre-commit"], true)]) ∧
    (∃ s, runC ⟨true, true, true, env⟩ n initSt = .ok s ∧
      s.ents.filterMap fileView =
        [([n, ".golintci.yml"], false), ([n, ".goreleaser.yml"], false),
         ([n, ".gitignore"], false), ([n, "Makefile"], false),
         ([n, "scripts", "pre-commit"], true),
         ([n, "scripts", "setup.sh"], true),
         ([n, "scripts", "cibuild.sh"], true),
         ([n, ".github", "workflows", "releaser.yml"], false),
         ([n, ".git", "hooks", "pre-commit"], true)]) :=
  ⟨⟨finalD n env, runD_ok n env, by simp [finalD, fileView, dirE, fileE]⟩,
    ⟨finalC n env, runC_ok n env, by simp [finalC, fileView, dirE, fileE]⟩⟩

/-- C3 counterexample: the `goModInit` of the first `main.go` variant runs
the module tool with the bare project name `demo`, not with the composed
name `project/demo` that the alias would yield. -/
theorem goModInit_bare_cex :
    goModInitA ⟨true, true, true, ⟨none, none⟩⟩ "demo" initSt =
      .ok ⟨[], [], [["go", "mod", "init", "demo"]]⟩ ∧
    getAlias ⟨none, none⟩ ++ "demo" = "project/demo" ∧
    ("project/demo" : String) ≠ "demo" :=
  ⟨rfl, rfl, by decide⟩

/-- C3 (amended): the alias-aware variants (`part_000` and the rich
`main.go` variant) always run `go mod init` with the composed name
`getAlias() + projectName` — in particular `project/demo` for name `demo`
when no SSH config is present — and never with the bare name there; the
two early `main.go` variants, however, run it with the bare project
name. -/
theorem goModInit_composed (n : String) (env : Env) :
    (∃ s, runD ⟨true, true, true, env⟩ n initSt = .ok s ∧
      modInitArgs s.trace = [[getAlias env ++ n]]) ∧
    (∃ s, runC ⟨true, true, true, env⟩ n initSt = .ok s ∧
      modInitArgs s.trace = [[getAlias env ++ n]]) ∧
    (getAlias ⟨none, none⟩ ++ "demo" = "project/demo") ∧
    (∀ (w : World) (s : St),
      traceOf (goModInitA w n s) = s.trace ++ [["go", "mod", "init", n]]) := by
  refine ⟨⟨finalD n env, runD_ok n env, ?_⟩,
    ⟨finalC n env, runC_ok n env, ?_⟩, rfl, ?_⟩
  · simp [finalD, fullTrace, modInitArgs, goVersionCmd, gitInitCmd, goModInitCmd]
  · simp [finalC, fullTrace, modInitArgs, goVersionCmd, gitInitCmd, goModInitCmd]
  · intro w s
    cases h : w.goModInitOk <;> simp [goModInitA, runCmd, traceOf, h]

end Goinit
